import Mathlib

/-!
Shallow embedding of `calc.py` (coinbase-sars) and a check of the
specification's claims against it.

Conventions of the embedding:
* Python `float` values are modelled as rationals `ℚ` (all arithmetic the
  source performs on them — `+`, `-`, `*`, `/` — is exact on the inputs of
  interest).
* Python runtime exceptions are modelled with `Except PyErr`; a function
  that can raise returns `Except PyErr α`.
* A `datetime` is modelled as a natural number of seconds; `.date()` is
  day-granular truncation (`pyDate`).
* Python dicts preserve insertion order, so the `gains`, `asset_value`,
  `total` and `balance` dicts are modelled as insertion-ordered association
  lists (`alGet` / `alSet`).
-/

/-- The closed transaction-type enumeration (`TransactionType`, calc.py 12–15). -/
inductive TransactionType where
  | Receive
  | Convert
  | Send
deriving DecidableEq

/-- Python runtime exceptions arising in the embedded code. -/
inductive PyErr where
  | typeError          -- comparing a date with None (calc.py 72)
  | valueError         -- float() on a non-numeric string (calc.py 48)
  | indexError         -- parsed[1] on a too-short list (calc.py 49)
  | zeroDivisionError  -- division by 0.0 (calc.py 51)
  | unboundLocalError  -- reading a local before assignment (calc.py 154)
deriving DecidableEq

/-- `TransactionModel` (calc.py 18–24).  Field names follow the source. -/
structure TransactionModel where
  timestamp : ℕ
  transaction_type : TransactionType
  asset : String
  quantity_transacted : ℚ
  spot_price : ℚ
  notes : String
deriving DecidableEq

/-- `timestamp.date()`: truncation of a second-resolution timestamp to its day. -/
def pyDate (ts : ℕ) : ℕ := ts / 86400

/-- `s.removeprefix(pre)` (calc.py 43): drops `pre` when the string starts
with it, otherwise returns the string unchanged; it never fails. -/
def pyRemovePre (s pre : String) : String :=
  if pre.data.isPrefixOf s.data then String.mk (s.data.drop pre.data.length) else s

/-- Character-level splitting on a separator, keeping empty segments, as
Python `str.split(sep)` does. -/
def splitChars (sep : Char) : List Char → List (List Char)
  | [] => [[]]
  | c :: rest =>
    let r := splitChars sep rest
    if c = sep then [] :: r
    else
      match r with
      | [] => [[c]]
      | g :: gs => (c :: g) :: gs

/-- `s.split(sep=" ")` (calc.py 43). -/
def pySplitSpace (s : String) : List String :=
  (splitChars ' ' s.data).map (fun cs => String.mk cs)

/-- Value of a digit-character list read in base 10. -/
def digitsToNat (cs : List Char) : ℕ :=
  cs.foldl (fun a c => a * 10 + (c.toNat - 48)) 0

/-- Models CPython `float()` (calc.py 48) on plain decimal literals: an
optional sign, then digits with at most one decimal point and at least one
digit overall; any other string yields `none` (a `ValueError`).  Exponent
forms, `inf`/`nan`, surrounding whitespace and underscores never occur in
the strings this program feeds it. -/
def pyParseFloat (s : String) : Option ℚ :=
  let cs := s.data
  let signBody : Bool × List Char :=
    match cs with
    | '-' :: rest => (true, rest)
    | '+' :: rest => (false, rest)
    | _ => (false, cs)
  let value? : Option ℚ :=
    match splitChars '.' signBody.2 with
    | [ip] =>
      if !ip.isEmpty && ip.all Char.isDigit then some ((digitsToNat ip : ℚ)) else none
    | [ip, fp] =>
      if ip.isEmpty && fp.isEmpty then none
      else if ip.all Char.isDigit && fp.all Char.isDigit then
        some ((digitsToNat ip : ℚ) + (digitsToNat fp : ℚ) / (10 : ℚ) ^ fp.length)
      else none
    | _ => none
  value?.map (fun v => if signBody.1 then -v else v)

/-- Decimal digits of the fraction `num/den` (with `num < den`), at most
`fuel` digits, stopping once the expansion is exact. -/
def fracDigitsAux : ℕ → ℕ → ℕ → List Char
  | _, _, 0 => []
  | num, den, fuel + 1 =>
    if num = 0 then []
    else Char.ofNat (48 + num * 10 / den) :: fracDigitsAux (num * 10 % den) den fuel

/-- Models CPython `str()` applied to a `float`, as the f-string in
calc.py 42 uses it: the shortest decimal form, with integral values
printing a trailing `.0` (so `str(1.0) = "1.0"`).  Exact for every value
whose decimal expansion terminates within 17 digits, which covers every
quantity this program formats. -/
def pyFloatStr (q : ℚ) : String :=
  let sign := if q < 0 then "-" else ""
  let n := q.num.natAbs
  let d := q.den
  let ds := fracDigitsAux (n % d) d 17
  sign ++ toString (n / d) ++ "." ++ (if ds.isEmpty then "0" else String.mk ds)

/-- The f-string `st` of calc.py 42: the expected lead-in of a Convert
record's notes, built from the record's own quantity and asset. -/
def convSt (tx : TransactionModel) : String :=
  "Converted " ++ pyFloatStr tx.quantity_transacted ++ " " ++ tx.asset ++ " to "

/-- `parsed` of calc.py 43: the notes with the lead-in stripped (when it
matches), split on single spaces. -/
def convParsed (tx : TransactionModel) : List String :=
  pySplitSpace (pyRemovePre tx.notes (convSt tx))

/-- One record of `_split_conversion` (calc.py 40–54): a `Convert` record
is re-emitted as `Send` together with a new `Receive` record whose quantity
and asset come from `notes` and whose price conserves the transacted value;
every other record passes through unchanged.  Failure points in source
order: `float(parsed[0])` (ValueError), `parsed[1]` (IndexError), division
by the parsed quantity (ZeroDivisionError). -/
def splitConvertOne (tx : TransactionModel) : Except PyErr (List TransactionModel) :=
  if tx.transaction_type = TransactionType.Convert then
    match convParsed tx with
    | [] => Except.error PyErr.valueError   -- unreachable: split yields ≥ 1 segment (convParsed_ne_nil)
    | p0 :: rest =>
      match pyParseFloat p0 with
      | none => Except.error PyErr.valueError
      | some q2 =>
        match rest with
        | a2 :: _ =>
          if q2 = 0 then Except.error PyErr.zeroDivisionError
          else Except.ok [{ tx with transaction_type := TransactionType.Send },
            { tx with
                transaction_type := TransactionType.Receive
                quantity_transacted := q2
                asset := a2
                spot_price := tx.spot_price * tx.quantity_transacted / q2 }]
        | [] => Except.error PyErr.indexError
  else Except.ok [tx]

/-- `_split_conversion` over a record sequence; the generator's exception
reaches the consumer (`sorted` in `parse` forces the whole stream), so the
list-level result is the first error when one occurs. -/
def splitConversion : List TransactionModel → Except PyErr (List TransactionModel)
  | [] => Except.ok []
  | tx :: rest =>
    match splitConvertOne tx with
    | Except.error e => Except.error e
    | Except.ok hd =>
      match splitConversion rest with
      | Except.error e => Except.error e
      | Except.ok tl => Except.ok (hd ++ tl)

/-- `_filter_transaction_type` (calc.py 57–64): keep a record when the
optional target type equals its type or is unset. -/
def filter_transaction_type (t? : Option TransactionType) (txns : List TransactionModel) :
    List TransactionModel :=
  txns.filter (fun tx => decide (t? = some tx.transaction_type) || decide (t? = none))

/-- `_filter_asset` (calc.py 67–68). -/
def filter_asset (a? : Option String) (txns : List TransactionModel) :
    List TransactionModel :=
  txns.filter (fun tx => decide (a? = some tx.asset) || decide (a? = none))

/-- `_filter_end_date` (calc.py 71–72).  The source evaluates
`tx.timestamp.date() <= date` before the `or date == None` guard, so an
unset date raises `TypeError` as soon as the first record is examined;
only the empty sequence survives an unset date. -/
def filter_end_date : Option ℕ → List TransactionModel → Except PyErr (List TransactionModel)
  | _, [] => Except.ok []
  | none, _ :: _ => Except.error PyErr.typeError
  | some d, tx :: rest =>
    match filter_end_date (some d) rest with
    | Except.error e => Except.error e
    | Except.ok r => Except.ok (if pyDate tx.timestamp ≤ d then tx :: r else r)

/-- The key order of `sorted(txns, key=lambda x: x.timestamp)` (calc.py 90). -/
def tsLE (a b : TransactionModel) : Prop := a.timestamp ≤ b.timestamp

instance : DecidableRel tsLE :=
  fun a b => inferInstanceAs (Decidable (a.timestamp ≤ b.timestamp))

instance : IsTotal TransactionModel tsLE :=
  ⟨fun a b => Nat.le_total a.timestamp b.timestamp⟩

instance : IsTrans TransactionModel tsLE :=
  ⟨fun _ _ _ => Nat.le_trans⟩

/-- Python's `sorted` is a stable ascending sort; insertion sort with the
non-strict key comparison computes exactly that stable sort. -/
def sortLedger (txns : List TransactionModel) : List TransactionModel :=
  List.insertionSort tsLE txns

/-- The pipeline of `parse` (calc.py 85–89) before the final sort:
end-date filter, then type filter, then asset filter, then conversion
splitting. -/
def assemblePre (txns : List TransactionModel) (t? : Option TransactionType)
    (a? : Option String) (d? : Option ℕ) : Except PyErr (List TransactionModel) :=
  match filter_end_date d? txns with
  | Except.error e => Except.error e
  | Except.ok t1 => splitConversion (filter_asset a? (filter_transaction_type t? t1))

/-- `parse` (calc.py 75–90), on an already-ingested raw record list (file
reading is boundary I/O outside this embedding). -/
def parse (txns : List TransactionModel) (t? : Option TransactionType)
    (a? : Option String) (d? : Option ℕ) : Except PyErr (List TransactionModel) :=
  match assemblePre txns t? a? d? with
  | Except.error e => Except.error e
  | Except.ok pre => Except.ok (sortLedger pre)

/-- `Cli.sum` (calc.py 96–107).  The source calls `parse(filepath, type,
asset)`, never forwarding its `end_date` parameter, so `parse` always
receives `end_date = None`. -/
def cliSum (txns : List TransactionModel) (t? : Option TransactionType)
    (a? : Option String) (end_date : Option ℕ) : Except PyErr ℚ :=
  match parse txns t? a? none with
  | Except.error e => Except.error e
  | Except.ok ts =>
    Except.ok (ts.foldl (fun total tx => total + tx.spot_price * tx.quantity_transacted) 0)

/-- `dict.get`: the value at a key, when present. -/
def alGet : List (String × ℚ) → String → Option ℚ
  | [], _ => none
  | (k', v) :: rest, k => if k' = k then some v else alGet rest k

/-- `dict[key] = value`: update in place, or append preserving insertion order. -/
def alSet : List (String × ℚ) → String → ℚ → List (String × ℚ)
  | [], k, v => [(k, v)]
  | (k', v') :: rest, k, v =>
    if k' = k then (k, v) :: rest else (k', v') :: alSet rest k v

/-- The two dicts the `Cli.cg` loop carries (calc.py 113–114). -/
structure CgState where
  gains : List (String × ℚ)
  asset_value : List (String × ℚ)

/-- One iteration of the `Cli.cg` loop (calc.py 115–127).  `first_purchase`
is the source's `asset_value.get(tx.asset) == 0`; after the seeding above
it the key is always present, so the lookups below use the stored value. -/
def cgStep (st : CgState) (tx : TransactionModel) : CgState :=
  let seeded : CgState :=
    if alGet st.gains tx.asset = none then
      { gains := alSet st.gains tx.asset 0, asset_value := alSet st.asset_value tx.asset 0 }
    else st
  let actual_gain : ℚ :=
    if alGet seeded.asset_value tx.asset = some 0 then 0
    else (tx.spot_price - (alGet seeded.asset_value tx.asset).getD 0) * tx.quantity_transacted
  { gains := alSet seeded.gains tx.asset ((alGet seeded.gains tx.asset).getD 0 + actual_gain),
    asset_value := alSet seeded.asset_value tx.asset tx.spot_price }

/-- The `Cli.cg` loop folded over an assembled ledger. -/
def cgFold (txns : List TransactionModel) : CgState :=
  txns.foldl cgStep ⟨[], []⟩

/-- The per-asset gains mapping `Cli.cg` prints. -/
def cgGains (txns : List TransactionModel) : List (String × ℚ) :=
  (cgFold txns).gains

/-- The Capital Gains Accumulator as the specification words it (§4.4):
the first transaction for an asset is a zero-contribution baseline that
seeds the tracked value with that transaction's price, and every later
transaction on the asset adds `(spot - tracked) * qty` and re-tracks.
Declared only to exhibit where the source diverges from it. -/
def cgStepSpec (st : CgState) (tx : TransactionModel) : CgState :=
  match alGet st.asset_value tx.asset with
  | none =>
    { gains := alSet st.gains tx.asset 0,
      asset_value := alSet st.asset_value tx.asset tx.spot_price }
  | some tracked =>
    { gains := alSet st.gains tx.asset
        ((alGet st.gains tx.asset).getD 0 +
          (tx.spot_price - tracked) * tx.quantity_transacted),
      asset_value := alSet st.asset_value tx.asset tx.spot_price }

/-- The gains mapping of the specification's accumulator (§4.4). -/
def cgGainsSpec (txns : List TransactionModel) : List (String × ℚ) :=
  (txns.foldl cgStepSpec ⟨[], []⟩).gains

/-- The state the `Cli.view` loop carries (calc.py 143–145), together with
the loop-local variable `amount`, which is unbound (`none`) before its
first assignment. -/
structure ViewState where
  total : List (String × ℚ)
  balance : List (String × ℚ)
  asset_value : List (String × ℚ)
  amount : Option ℚ

/-- One iteration of the `Cli.view` loop (calc.py 146–157).  The source's
`amount = tx.quantity_transacted if type == Receive else -1 * amount`
reads the previous iteration's `amount` in the else-branch — an
`UnboundLocalError` when none has been bound yet. -/
def viewStep (st : ViewState) (tx : TransactionModel) : Except PyErr ViewState :=
  let total0 :=   -- `if not total.get(tx.asset)`: falsy means absent or zero
    if (alGet st.total tx.asset).getD 0 = 0 then alSet st.total tx.asset 0 else st.total
  let asset_value := alSet st.asset_value tx.asset tx.spot_price
  match (if tx.transaction_type = TransactionType.Receive
         then Except.ok tx.quantity_transacted
         else match st.amount with
              | none => Except.error PyErr.unboundLocalError
              | some prev => Except.ok (-1 * prev)) with
  | Except.error e => Except.error e
  | Except.ok amount =>
    let total1 := alSet total0 tx.asset ((alGet total0 tx.asset).getD 0 + amount)
    Except.ok
      { total := total1
        balance := alSet st.balance tx.asset
          ((alGet total1 tx.asset).getD 0 * (alGet asset_value tx.asset).getD 0)
        asset_value := asset_value
        amount := some amount }

/-- The `Cli.view` loop over a record sequence, from a given state. -/
def viewGo : ViewState → List TransactionModel → Except PyErr (List (String × ℚ))
  | st, [] => Except.ok st.balance
  | st, tx :: rest =>
    match viewStep st tx with
    | Except.error e => Except.error e
    | Except.ok st' => viewGo st' rest

/-- The balance mapping `Cli.view` prints over an assembled ledger
(calc.py 143–158). -/
def viewBalance (txns : List TransactionModel) : Except PyErr (List (String × ℚ)) :=
  viewGo ⟨[], [], [], none⟩ txns

/-! Concrete records used by the scenario claims and the witnesses. -/

/-- `Receive ETH qty=2 price=10 @t0` of the spec's Balance Valuator scenario. -/
def rxETH : TransactionModel := ⟨0, TransactionType.Receive, "ETH", 2, 10, ""⟩

/-- `Send ETH qty=1 price=10 @t1` of the spec's Balance Valuator scenario. -/
def sxETH : TransactionModel := ⟨1, TransactionType.Send, "ETH", 1, 10, ""⟩

/-- The `Convert` record of the spec's splitter scenario, exactly as the
spec states it: qty 1, price 100, notes `"Converted 1 BTC to 20 ETH"`. -/
def convertScenario : TransactionModel :=
  ⟨0, TransactionType.Convert, "BTC", 1, 100, "Converted 1 BTC to 20 ETH"⟩

/-- A `Convert` record whose notes do carry the lead-in the source builds
(`str(1.0)` renders `"1.0"`), and parse cleanly. -/
def convertOk : TransactionModel :=
  ⟨0, TransactionType.Convert, "BTC", 1, 100, "Converted 1.0 BTC to 20 ETH"⟩

/-- The Send half the splitter emits for `convertOk`. -/
def sentOk : TransactionModel :=
  { convertOk with transaction_type := TransactionType.Send }

/-- The Receive half the splitter emits for `convertOk`. -/
def recvOk : TransactionModel :=
  { sentOk with
      quantity_transacted := 20
      asset := "ETH"
      transaction_type := TransactionType.Receive
      spot_price := 100 * 1 / 20 }

/-- A `Convert` record whose trailing note tokens are three, not the
expected quantity-then-asset pair. -/
def convertExtra : TransactionModel :=
  ⟨0, TransactionType.Convert, "BTC", 1, 100, "Converted 1.0 BTC to 20 ETH extra"⟩

/-- The Send half the splitter emits for `convertExtra`. -/
def sentExtra : TransactionModel :=
  { convertExtra with transaction_type := TransactionType.Send }

/-- The Receive half the splitter emits for `convertExtra`: the third note
token is silently ignored. -/
def recvExtra : TransactionModel :=
  { sentExtra with
      quantity_transacted := 20
      asset := "ETH"
      transaction_type := TransactionType.Receive
      spot_price := 100 * 1 / 20 }

/-- First `BTC` record of the zero-price Capital Gains counterexample:
spot price 0 at t0. -/
def btcZero : TransactionModel := ⟨0, TransactionType.Receive, "BTC", 1, 0, ""⟩

/-- Second `BTC` record of the zero-price Capital Gains counterexample:
spot price 10 at t1. -/
def btcTen : TransactionModel := ⟨1, TransactionType.Receive, "BTC", 1, 10, ""⟩

/-- `Receive BTC qty=1 price=100 @t0` of the spec's Capital Gains scenario. -/
def btcHundred : TransactionModel := ⟨0, TransactionType.Receive, "BTC", 1, 100, ""⟩

/-- `Receive BTC qty=1 price=150 @t1` of the spec's Capital Gains scenario. -/
def btcOneFifty : TransactionModel := ⟨1, TransactionType.Receive, "BTC", 1, 150, ""⟩

/-- A record at timestamp 1, first in ingestion order among its ties. -/
def tieA : TransactionModel := ⟨1, TransactionType.Receive, "AAA", 1, 1, ""⟩

/-- A record at timestamp 1, second in ingestion order among its ties. -/
def tieB : TransactionModel := ⟨1, TransactionType.Receive, "BBB", 1, 1, ""⟩

/-- A record at timestamp 0, ingested after both timestamp-1 records. -/
def tieC : TransactionModel := ⟨0, TransactionType.Receive, "CCC", 1, 1, ""⟩

/-! ### Helper lemmas -/

/-- Updating a key then reading it back yields the written value. -/
theorem alGet_alSet_self (m : List (String × ℚ)) (k : String) (v : ℚ) :
    alGet (alSet m k v) k = some v := by
  induction m with
  | nil => simp [alSet, alGet]
  | cons p rest ih =>
    obtain ⟨k', v'⟩ := p
    by_cases h : k' = k
    · simp [alSet, alGet, h]
    · simp [alSet, alGet, h, ih]

/-- Character-level splitting always yields at least one segment. -/
theorem splitChars_ne_nil (sep : Char) (cs : List Char) : splitChars sep cs ≠ [] := by
  cases cs with
  | nil => simp [splitChars]
  | cons c rest =>
    unfold splitChars
    split <;> simp
    split <;> simp

/-- The token list of a Convert record's notes is never empty, so the
first clause of the match in `splitConvertOne` is unreachable. -/
theorem convParsed_ne_nil (tx : TransactionModel) : convParsed tx ≠ [] := by
  unfold convParsed pySplitSpace
  simp [splitChars_ne_nil]

/-- A successful split of one record emits no `Convert` record. -/
theorem splitConvertOne_no_convert {tx : TransactionModel} {out : List TransactionModel}
    (h : splitConvertOne tx = Except.ok out) :
    ∀ t ∈ out, t.transaction_type ≠ TransactionType.Convert := by
  by_cases hc : tx.transaction_type = TransactionType.Convert
  · unfold splitConvertOne at h
    rw [if_pos hc] at h
    split at h
    · simp at h
    · split at h
      · simp at h
      · split at h
        · split at h
          · simp at h
          · simp only [Except.ok.injEq] at h
            subst h
            intro t ht
            rcases List.mem_cons.mp ht with h1 | h1
            · subst h1; simp
            · rcases List.mem_cons.mp h1 with h2 | h2
              · subst h2; simp
              · simp at h2
        · simp at h
  · unfold splitConvertOne at h
    rw [if_neg hc] at h
    simp only [Except.ok.injEq] at h
    subst h
    intro t ht
    simp at ht
    subst ht
    exact hc

/-- A successful split of a record list emits no `Convert` record. -/
theorem splitConversion_no_convert :
    ∀ {txns out : List TransactionModel}, splitConversion txns = Except.ok out →
      ∀ t ∈ out, t.transaction_type ≠ TransactionType.Convert := by
  intro txns
  induction txns with
  | nil =>
    intro out h
    simp only [splitConversion, Except.ok.injEq] at h
    subst h
    simp
  | cons tx rest ih =>
    intro out h
    unfold splitConversion at h
    cases h1 : splitConvertOne tx with
    | error e => rw [h1] at h; exact absurd h (by simp)
    | ok hd =>
      rw [h1] at h
      cases h2 : splitConversion rest with
      | error e => rw [h2] at h; exact absurd h (by simp)
      | ok tl =>
        rw [h2] at h
        simp only [Except.ok.injEq] at h
        subst h
        intro t ht
        rcases List.mem_append.mp ht with h3 | h3
        · exact splitConvertOne_no_convert h1 t h3
        · exact ih h2 t h3

/-- Inserting a record into a list keeps, among records of one fixed
timestamp, the inserted record first exactly when its timestamp matches:
every record it jumps over has a strictly smaller timestamp. -/
theorem filter_ts_orderedInsert (t0 : ℕ) (x : TransactionModel) (l : List TransactionModel) :
    (List.orderedInsert tsLE x l).filter (fun tx => decide (tx.timestamp = t0)) =
      if x.timestamp = t0 then x :: l.filter (fun tx => decide (tx.timestamp = t0))
      else l.filter (fun tx => decide (tx.timestamp = t0)) := by
  induction l with
  | nil =>
    by_cases hx : x.timestamp = t0 <;> simp [List.orderedInsert, List.filter_cons, hx]
  | cons b bs ih =>
    by_cases hxb : tsLE x b
    · rw [List.orderedInsert, if_pos hxb]
      by_cases hx : x.timestamp = t0 <;> by_cases hb : b.timestamp = t0 <;>
        simp [List.filter_cons, hx, hb]
    · rw [List.orderedInsert, if_neg hxb]
      by_cases hx : x.timestamp = t0 <;> by_cases hb : b.timestamp = t0
      · exact absurd (show tsLE x b from by rw [tsLE, hx, hb]) hxb
      · simp [List.filter_cons, hx, hb, ih]
      · simp [List.filter_cons, hx, hb, ih]
      · simp [List.filter_cons, hx, hb, ih]

/-- The stable sort keeps records of each fixed timestamp in their original
relative order. -/
theorem filter_ts_sortLedger (t0 : ℕ) (l : List TransactionModel) :
    (sortLedger l).filter (fun tx => decide (tx.timestamp = t0)) =
      l.filter (fun tx => decide (tx.timestamp = t0)) := by
  induction l with
  | nil => rfl
  | cons x xs ih =>
    unfold sortLedger at ih ⊢
    rw [List.insertionSort, filter_ts_orderedInsert]
    by_cases hx : x.timestamp = t0 <;> simp [List.filter_cons, hx, ih]

/-- Once `amount` is bound, every further iteration of the `Cli.view` loop
succeeds and keeps it bound. -/
theorem viewGo_ok (txns : List TransactionModel) :
    ∀ st : ViewState, st.amount.isSome → ∃ bal, viewGo st txns = Except.ok bal := by
  induction txns with
  | nil => intro st _; exact ⟨st.balance, rfl⟩
  | cons tx rest ih =>
    intro st hst
    obtain ⟨prev, hprev⟩ := Option.isSome_iff_exists.mp hst
    by_cases hr : tx.transaction_type = TransactionType.Receive
    · simp only [viewGo, viewStep, hr, if_true, eq_self_iff_true, if_pos rfl]
      exact ih _ rfl
    · simp only [viewGo, viewStep, if_neg hr, hprev]
      exact ih _ rfl

/-! ### Claims -/

/-- C1 (code_bug evidence): on the spec's Balance Valuator scenario ledger
`[Receive ETH qty=2 price=10 @t0, Send ETH qty=1 price=10 @t1]` the code
yields the balance mapping `{ETH: 0}`, not `{ETH: 10}` as the claim states:
the Send branch computes `-1 * amount` from the previous iteration's bound
`amount` (2), not from the record's own quantity (1). -/
theorem view_scenario_balance_zero :
    viewBalance [rxETH, sxETH] = Except.ok [("ETH", 0)] := by
  simp [viewBalance, viewGo, viewStep, alGet, alSet, rxETH, sxETH]

/-- C2 (code_bug evidence): with `end_date` unset the filter raises
`TypeError` on the first record it examines, instead of keeping every
record — the source evaluates `tx.timestamp.date() <= date` before the
`or date == None` guard; with `end_date` set it keeps exactly the records
whose day is at most `end_date` (inclusive), as the claim states. -/
theorem filter_end_date_behavior :
    (∀ tx rest, filter_end_date none (tx :: rest) = Except.error PyErr.typeError) ∧
    (∀ d txns, filter_end_date (some d) txns =
      Except.ok (txns.filter (fun tx => decide (pyDate tx.timestamp ≤ d)))) := by
  refine ⟨fun tx rest => rfl, fun d txns => ?_⟩
  induction txns with
  | nil => rfl
  | cons tx rest ih =>
    rw [filter_end_date, ih]
    by_cases h : pyDate tx.timestamp ≤ d <;> simp [List.filter_cons, h]

/-- C3: when the splitter succeeds on a `Convert` record and the parsed
destination quantity is positive, the `Receive` half's price is
`(source_price * source_quantity) / dest_quantity`, so the two halves carry
equal economic value. -/
theorem conversion_conserves_value (tx s r : TransactionModel)
    (hc : tx.transaction_type = TransactionType.Convert)
    (h : splitConvertOne tx = Except.ok [s, r])
    (hq : 0 < r.quantity_transacted) :
    r.spot_price = tx.spot_price * tx.quantity_transacted / r.quantity_transacted ∧
    r.spot_price * r.quantity_transacted = tx.spot_price * tx.quantity_transacted ∧
    s.spot_price = tx.spot_price ∧ s.quantity_transacted = tx.quantity_transacted := by
  unfold splitConvertOne at h
  rw [if_pos hc] at h
  split at h
  · simp at h
  · split at h
    · simp at h
    · split at h
      · split at h
        · simp at h
        · simp only [Except.ok.injEq, List.cons.injEq, and_true] at h
          obtain ⟨hs, hr⟩ := h
          subst hs
          subst hr
          refine ⟨rfl, ?_, rfl, rfl⟩
          exact div_mul_cancel₀ _ (by simpa using hq.ne')
      · simp at h

/-- Witness for C3 at the concrete record `convertOk`. -/
theorem conversion_conserves_value_witness :
    recvOk.spot_price * recvOk.quantity_transacted =
      convertOk.spot_price * convertOk.quantity_transacted :=
  (conversion_conserves_value convertOk sentOk recvOk rfl rfl (by norm_num [recvOk])).2.1

/-- C4 counterexample: `convertExtra`'s notes carry three trailing tokens
`["20", "ETH", "extra"]` — not exactly a numeric quantity followed by an
asset symbol — yet the splitter succeeds instead of signalling an error:
the extra token is silently ignored. -/
theorem malformed_note_accepted :
    convParsed convertExtra = ["20", "ETH", "extra"] ∧
    splitConvertOne convertExtra = Except.ok [sentExtra, recvExtra] :=
  ⟨rfl, rfl⟩

/-- C4 amended: for a `Convert` record the splitter fails (and the list-level
run aborts) precisely when the first trailing token is not numeric, when
there is no second trailing token, or when the parsed quantity is zero;
trailing tokens beyond the first two are ignored, and a notes field whose
lead-in does not match the expected form is not itself detected (parsing
simply proceeds on the unstripped token list). -/
theorem split_failure_characterization :
    (∀ tx : TransactionModel, tx.transaction_type = TransactionType.Convert →
      ((∃ out, splitConvertOne tx = Except.ok out) ↔
        ((∃ q2, pyParseFloat ((convParsed tx).headD "") = some q2 ∧ q2 ≠ 0) ∧
          2 ≤ (convParsed tx).length))) ∧
    (∀ txns tx e, tx ∈ txns → splitConvertOne tx = Except.error e →
      ∃ e', splitConversion txns = Except.error e') := by
  constructor
  · intro tx hc
    unfold splitConvertOne
    rw [if_pos hc]
    cases hparsed : convParsed tx with
    | nil => exact absurd hparsed (convParsed_ne_nil tx)
    | cons p0 rest =>
      cases hp : pyParseFloat p0 with
      | none => simp [hp]
      | some q2 =>
        cases rest with
        | nil => simp [hp]
        | cons a2 t2 =>
          by_cases hz : q2 = 0
          · subst hz
            simp [hp]
          · simp only [hp, if_neg hz, List.headD_cons, List.length_cons]
            constructor
            · intro _
              exact ⟨⟨q2, rfl, hz⟩, by omega⟩
            · intro _
              exact ⟨_, rfl⟩
  · intro txns
    induction txns with
    | nil => intro tx e h; simp at h
    | cons hd rest ih =>
      intro tx e hmem herr
      rcases List.mem_cons.mp hmem with h1 | h1
      · subst h1
        exact ⟨e, by rw [splitConversion, herr]⟩
      · unfold splitConversion
        cases h2 : splitConvertOne hd with
        | error e2 => exact ⟨e2, rfl⟩
        | ok hd' =>
          obtain ⟨e', he'⟩ := ih tx e h1 herr
          rw [he']
          exact ⟨e', rfl⟩

/-- Witness for C4's amended characterization: the malformed record
`convertExtra` satisfies the success condition, and a record whose notes
fail numeric parsing aborts the list-level run. -/
theorem split_failure_characterization_witness :
    (∃ out, splitConvertOne convertExtra = Except.ok out) ∧
    (∃ e', splitConversion [convertScenario] = Except.error e') :=
  ⟨(split_failure_characterization.1 convertExtra rfl).mpr
      ⟨⟨20, rfl, by norm_num⟩, by decide⟩,
    split_failure_characterization.2 [convertScenario] convertScenario PyErr.valueError
      (List.mem_singleton.mpr rfl) rfl⟩

/-- C5 counterexample: on `[Receive BTC qty=1 price=0 @t0, Receive BTC
qty=1 price=10 @t1]` the code yields `{BTC: 0}`, while the claimed rule
(the §4.4 accumulator, `cgGainsSpec`) yields `{BTC: (10-0)*1 = 10}`: the
source detects "first purchase" by `tracked value == 0`, so a transaction
following a zero-price one is re-treated as a baseline. -/
theorem zero_price_rebaseline :
    cgGains [btcZero, btcTen] = [("BTC", 0)] ∧
    cgGainsSpec [btcZero, btcTen] = [("BTC", 10)] ∧
    cgGains [btcZero, btcTen] ≠ cgGainsSpec [btcZero, btcTen] := by
  refine ⟨?_, ?_, ?_⟩ <;>
    simp [cgGains, cgGainsSpec, cgFold, cgStep, cgStepSpec, alGet, alSet, btcZero, btcTen]

/-- C5 amended: a transaction on an asset contributes
`(spot - tracked) * qty` to the running gain exactly when the tracked
value is present and nonzero; the first transaction for an asset — and any
transaction made while the tracked value is 0, i.e. after a zero-price
transaction — contributes exactly 0; in every case the tracked value is
then set to the current spot price. -/
theorem cg_step_contribution (L : List TransactionModel) (tx : TransactionModel) :
    (alGet (cgFold L).gains tx.asset = none →
      alGet (cgGains (L ++ [tx])) tx.asset = some 0) ∧
    (∀ g v, alGet (cgFold L).gains tx.asset = some g →
      alGet (cgFold L).asset_value tx.asset = some v → v ≠ 0 →
      alGet (cgGains (L ++ [tx])) tx.asset =
        some (g + (tx.spot_price - v) * tx.quantity_transacted)) ∧
    (∀ g, alGet (cgFold L).gains tx.asset = some g →
      alGet (cgFold L).asset_value tx.asset = some 0 →
      alGet (cgGains (L ++ [tx])) tx.asset = some g) ∧
    alGet (cgFold (L ++ [tx])).asset_value tx.asset = some tx.spot_price := by
  have hfold : cgFold (L ++ [tx]) = cgStep (cgFold L) tx := by
    simp [cgFold, List.foldl_append]
  refine ⟨?_, ?_, ?_, ?_⟩
  · intro h
    simp [cgGains, hfold, cgStep, h, alGet_alSet_self]
  · intro g v hg hv hvne
    simp [cgGains, hfold, cgStep, hg, hv, hvne, alGet_alSet_self]
  · intro g hg hv
    simp [cgGains, hfold, cgStep, hg, hv, alGet_alSet_self]
  · by_cases h : alGet (cgFold L).gains tx.asset = none <;>
      simp [hfold, cgStep, h, alGet_alSet_self]

/-- Witness for C5's amended rule at the spec's own Capital Gains scenario:
`[Receive BTC 1@100, Receive BTC 1@150]` accumulates `{BTC: 50}`. -/
theorem cg_step_contribution_witness :
    alGet (cgGains ([btcHundred] ++ [btcOneFifty])) btcOneFifty.asset = some 50 :=
  ((cg_step_contribution [btcHundred] btcOneFifty).2.1 0 100
      (by simp [cgFold, cgStep, alGet, alSet, btcHundred, btcOneFifty])
      (by simp [cgFold, cgStep, alGet, alSet, btcHundred, btcOneFifty])
      (by norm_num)).trans (by norm_num [btcOneFifty])

/-- C6 (code_bug evidence): on the spec's splitter scenario — `Convert`,
qty 1, price 100, notes `"Converted 1 BTC to 20 ETH"` — the lead-in the
source builds renders the float quantity as `"1.0"`, so it is not a lead-in
of the notes, stripping does nothing, and `float("Converted")` raises
`ValueError` instead of producing the claimed Send/Receive pair. -/
theorem convert_scenario_raises :
    convSt convertScenario = "Converted 1.0 BTC to " ∧
    convParsed convertScenario = ["Converted", "1", "BTC", "to", "20", "ETH"] ∧
    splitConvertOne convertScenario = Except.error PyErr.valueError :=
  ⟨rfl, rfl, rfl⟩

/-- C7: whenever the Ledger Assembler produces an output, that output
contains zero records of type `Convert`: the splitter rewrites every
surviving `Convert` into a Send/Receive pair (or aborts). -/
theorem no_convert_in_ledger (txns : List TransactionModel) (t? : Option TransactionType)
    (a? : Option String) (d? : Option ℕ) (ledger : List TransactionModel)
    (h : parse txns t? a? d? = Except.ok ledger) :
    ∀ tx ∈ ledger, tx.transaction_type ≠ TransactionType.Convert := by
  unfold parse at h
  cases hpre : assemblePre txns t? a? d? with
  | error e => rw [hpre] at h; exact absurd h (by simp)
  | ok pre =>
    rw [hpre] at h
    simp only [Except.ok.injEq] at h
    subst h
    intro tx htx
    have hmem : tx ∈ pre := (List.perm_insertionSort tsLE pre).mem_iff.mp htx
    unfold assemblePre at hpre
    cases hfe : filter_end_date d? txns with
    | error e => rw [hfe] at hpre; exact absurd hpre (by simp)
    | ok t1 =>
      rw [hfe] at hpre
      exact splitConversion_no_convert hpre tx hmem

/-- Witness for C7: a concrete successful assembly containing a split
conversion, whose members are all non-`Convert`. -/
theorem no_convert_in_ledger_witness :
    sentOk.transaction_type ≠ TransactionType.Convert :=
  no_convert_in_ledger [convertOk] none none (some 5) [sentOk, recvOk] rfl sentOk
    (by simp)

/-- C8: a produced ledger is ascending in timestamp at every adjacent pair,
and the sort is stable: for each fixed timestamp, the records carrying it
appear in the ledger in exactly their pre-sort (ingestion/split) order. -/
theorem ledger_sorted_and_stable (txns : List TransactionModel) (t? : Option TransactionType)
    (a? : Option String) (d? : Option ℕ) (ledger : List TransactionModel)
    (h : parse txns t? a? d? = Except.ok ledger) :
    List.Chain' (fun x y => x.timestamp ≤ y.timestamp) ledger ∧
    ∀ pre, assemblePre txns t? a? d? = Except.ok pre →
      ∀ t0, ledger.filter (fun tx => decide (tx.timestamp = t0)) =
            pre.filter (fun tx => decide (tx.timestamp = t0)) := by
  unfold parse at h
  cases hpre : assemblePre txns t? a? d? with
  | error e => rw [hpre] at h; exact absurd h (by simp)
  | ok pre =>
    rw [hpre] at h
    simp only [Except.ok.injEq] at h
    subst h
    constructor
    · exact (List.sorted_insertionSort tsLE pre).chain'
    · intro pre' hpre' t0
      simp only [Except.ok.injEq] at hpre'
      subst hpre'
      exact filter_ts_sortLedger t0 pre

/-- Witness for C8: three records, two tied at timestamp 1 ingested before
a timestamp-0 record; the assembled ledger is sorted and the tied pair
keeps its ingestion order. -/
theorem ledger_sorted_and_stable_witness :
    List.Chain' (fun x y : TransactionModel => x.timestamp ≤ y.timestamp)
      [tieC, tieA, tieB] ∧
    ([tieC, tieA, tieB] : List TransactionModel).filter
        (fun tx => decide (tx.timestamp = 1)) =
      ([tieA, tieB, tieC] : List TransactionModel).filter
        (fun tx => decide (tx.timestamp = 1)) :=
  ⟨(ledger_sorted_and_stable [tieA, tieB, tieC] none none (some 5) [tieC, tieA, tieB] rfl).1,
   (ledger_sorted_and_stable [tieA, tieB, tieC] none none (some 5) [tieC, tieA, tieB] rfl).2
     [tieA, tieB, tieC] rfl 1⟩

/-- C9 (code_bug evidence): `Cli.sum` never forwards its `end_date`
argument to `parse` — its result is independent of `end_date` — and since
`parse` therefore always runs the end-date filter with an unset date, the
operation raises `TypeError` on every nonempty record list instead of
printing a filtered total. -/
theorem sum_ignores_end_date :
    (∀ txns t? a? d1 d2, cliSum txns t? a? d1 = cliSum txns t? a? d2) ∧
    (∀ tx rest t? a? d?, cliSum (tx :: rest) t? a? d? = Except.error PyErr.typeError) :=
  ⟨fun _ _ _ _ _ => rfl, fun _ _ _ _ _ => rfl⟩

/-- C10: the `Cli.view` loop fails with an unbound-local error whenever the
first ledger record is a `Send` (its else-branch reads `amount` before any
binding), and succeeds on every ledger whose first record is a `Receive`
(the first iteration binds `amount` and it stays bound). -/
theorem view_total_iff_first_receive :
    (∀ tx rest, tx.transaction_type = TransactionType.Send →
      viewBalance (tx :: rest) = Except.error PyErr.unboundLocalError) ∧
    (∀ tx rest, tx.transaction_type = TransactionType.Receive →
      ∃ bal, viewBalance (tx :: rest) = Except.ok bal) := by
  constructor
  · intro tx rest htx
    have hne : ¬ tx.transaction_type = TransactionType.Receive := by
      rw [htx]; simp
    simp [viewBalance, viewGo, viewStep, hne]
  · intro tx rest htx
    simp only [viewBalance, viewGo, viewStep, htx, if_true, eq_self_iff_true, if_pos rfl]
    exact viewGo_ok rest _ rfl

/-- Witness for C10: a Send-first singleton ledger fails; a Receive-first
singleton ledger does not. -/
theorem view_total_iff_first_receive_witness :
    viewBalance [sxETH] = Except.error PyErr.unboundLocalError ∧
    viewBalance [rxETH] ≠ Except.error PyErr.unboundLocalError := by
  refine ⟨view_total_iff_first_receive.1 sxETH [] rfl, ?_⟩
  obtain ⟨b, hb⟩ := view_total_iff_first_receive.2 rxETH [] rfl
  rw [hb]
  simp
